import Mathlib

/-!
Verification development for the net-speed panel extension
(`extension.js`).  The core logic — reading `/proc/net/dev`-style counter
text, aggregating per-interface byte counters, deriving down/up rates,
and formatting the rate as a human-readable string — is shallowly
embedded below.  Counters are modelled as `ℕ` (JavaScript numbers hold
these sums exactly in the realistic range) and rates as `ℚ` (the deltas
and 3-second divisions involved are exact in binary64 for realistic
counter values, so `ℚ` is a faithful model of the arithmetic performed).
The fallible file read is modelled as an `Except` input; the `try/catch`
of `getCurrentNetSpeed` becomes a `match` on it.
-/

/-- The JavaScript `\w` character class (`[A-Za-z0-9_]`); `\W` is its
complement.  `Char.isAlphanum` is ASCII-only, matching the regex. -/
def isWordChar (c : Char) : Bool :=
  c.isAlphanum || c == '_'

/-- JavaScript `String.prototype.trim` restricted to ASCII whitespace,
which is all that occurs in counter-file lines. -/
def jsTrim (s : String) : String :=
  String.mk (((s.toList.dropWhile Char.isWhitespace).reverse.dropWhile
    Char.isWhitespace).reverse)

/-- Worker for `jsSplitNonWord`, processing the characters from the
right.  A word character extends the current (leftmost) piece.  A
non-word character belongs to a maximal `\W+` separator run; only the
last character of the run (next character is a word character, or end
of string) closes that run and opens the piece on its left, so interior
characters of the run leave the result unchanged.  This yields the
pieces between maximal non-word runs, with an empty leading (resp.
trailing) piece when the string starts (resp. ends) with a non-word
character and `[[]]` on the empty string — exactly JavaScript
`split(/\W+/)`. -/
def jsSplitChars : List Char → List (List Char)
  | [] => [[]]
  | c :: rest =>
    let r := jsSplitChars rest
    if isWordChar c then
      match r with
      | s :: tail => (c :: s) :: tail
      | [] => [[c]]
    else
      match rest with
      | d :: _ => if isWordChar d then [] :: r else r
      | [] => [] :: r

/-- JavaScript `s.split(/\W+/)`. -/
def jsSplitNonWord (s : String) : List String :=
  (jsSplitChars s.toList).map String.mk

/-- Worker for `jsSplitLines`: split a character list at every
occurrence of the separator character (no run merging), as JavaScript
`split('\n')` does. -/
def splitAtChar (sep : Char) : List Char → List (List Char)
  | [] => [[]]
  | c :: rest =>
    let r := splitAtChar sep rest
    if c == sep then
      [] :: r
    else
      match r with
      | s :: tail => (c :: s) :: tail
      | [] => [[c]]

/-- JavaScript `content.split('\n')` as used on the decoded file
content. -/
def jsSplitLines (content : String) : List String :=
  (splitAtChar '\n' content.toList).map String.mk

/-- Tokenization `lines[i].trim().split(/\W+/)` of `getCurrentNetSpeed`. -/
def fieldsOf (line : String) : List String :=
  jsSplitNonWord (jsTrim line)

/-- Hexadecimal digit test, as used by `parseInt` after a `0x` prefix. -/
def isHexDigitChar (c : Char) : Bool :=
  c.isDigit || ('a' ≤ c && c ≤ 'f') || ('A' ≤ c && c ≤ 'F')

/-- Value of a hexadecimal digit. -/
def hexDigitVal (c : Char) : ℕ :=
  if c.isDigit then c.toNat - '0'.toNat
  else if 'a' ≤ c && c ≤ 'f' then c.toNat - 'a'.toNat + 10
  else c.toNat - 'A'.toNat + 10

/-- Value of a list of decimal digits. -/
def decVal (ds : List Char) : ℕ :=
  ds.foldl (fun n c => 10 * n + (c.toNat - '0'.toNat)) 0

/-- Value of a list of hexadecimal digits. -/
def hexVal (ds : List Char) : ℕ :=
  ds.foldl (fun n c => 16 * n + hexDigitVal c) 0

/-- Model of `Number.parseInt(tok)` as applied in `getCurrentNetSpeed`, on an
optional token (`none` models `fields[i]` being `undefined`, which
`parseInt` turns into NaN).  Tokens produced by the `\W+` split consist
of word characters only, so the sign/whitespace handling of `parseInt`
can never fire and is omitted.  With no radix argument `parseInt` honors
a `0x`/`0X` prefix (hexadecimal) and otherwise takes the longest leading
run of decimal digits; no digits at all gives NaN, modelled `none`. -/
def jsParseInt : Option String → Option ℕ
  | none => none
  | some s =>
    match s.toList with
    | '0' :: c :: rest =>
      if c == 'x' || c == 'X' then
        let ds := rest.takeWhile isHexDigitChar
        if ds.isEmpty then none else some (hexVal ds)
      else
        let ds := ('0' :: c :: rest).takeWhile Char.isDigit
        if ds.isEmpty then none else some (decVal ds)
    | cs =>
      let ds := cs.takeWhile Char.isDigit
      if ds.isEmpty then none else some (decVal ds)

/-- Prefix test on character lists. -/
def charsPrefixOf : List Char → List Char → Bool
  | [], _ => true
  | _ :: _, [] => false
  | c :: cs, d :: ds => c == d && charsPrefixOf cs ds

/-- JavaScript `s.startsWith(p)`. -/
def jsStartsWith (s p : String) : Bool :=
  charsPrefixOf p.toList s.toList

/-- Test for `iface.match(/^p[0-9]+/)` being non-null: `iface` starts with `p`
immediately followed by at least one decimal digit. -/
def prefixThenDigit (p iface : String) : Bool :=
  jsStartsWith iface p &&
    (match iface.toList.drop p.length with
     | c :: _ => c.isDigit
     | [] => false)

/-- The virtual-interface skip condition of `getCurrentNetSpeed`
(lines 151-163 of the ESM `extension.js`): exact name `lo`, the nine
regex prefixes each requiring a trailing digit, and the `veth` prefix
via `startsWith`. -/
def isVirtualIface (iface : String) : Bool :=
  iface == "lo" ||
  prefixThenDigit "ifb" iface ||
  prefixThenDigit "lxdbr" iface ||
  prefixThenDigit "virbr" iface ||
  prefixThenDigit "br" iface ||
  prefixThenDigit "vnet" iface ||
  prefixThenDigit "tun" iface ||
  prefixThenDigit "tap" iface ||
  prefixThenDigit "docker" iface ||
  prefixThenDigit "utun" iface ||
  jsStartsWith iface "veth"

/-- One iteration of the line loop of `getCurrentNetSpeed`
(lines 141-171): the pair of byte counts the line adds to the running
totals, or `none` when the line is skipped (`continue`). -/
def lineContribution (line : String) : Option (ℕ × ℕ) :=
  let fields := fieldsOf line
  if fields.length ≤ 2 then
    none
  else
    let iface := (fields.get? 0).getD ""
    let currentInterfaceDownBytes := jsParseInt (fields.get? 1)
    let currentInterfaceUpBytes := jsParseInt (fields.get? 9)
    if isVirtualIface iface ||
        currentInterfaceDownBytes.isNone || currentInterfaceUpBytes.isNone then
      none
    else
      some (currentInterfaceDownBytes.getD 0, currentInterfaceUpBytes.getD 0)

/-- One `totalDownBytes += ...; totalUpBytes += ...` update for one line. -/
def addContribution (acc : ℕ × ℕ) (line : String) : ℕ × ℕ :=
  match lineContribution line with
  | some du => (acc.1 + du.1, acc.2 + du.2)
  | none => acc

/-- The totals accumulated by the line loop over a list of lines. -/
def aggregateLines (lines : List String) : ℕ × ℕ :=
  lines.foldl addContribution (0, 0)

/-- The pair `(totalDownBytes, totalUpBytes)` computed by `getCurrentNetSpeed`
from the decoded file content (split on `'\n'` as in the source). -/
def aggregateTotals (content : String) : ℕ × ℕ :=
  aggregateLines (jsSplitLines content)

/-- Carried-over state of the extension: `this._lastTotalDownBytes` and
`this._lastTotalUpBytes`. -/
structure SamplerState where
  lastTotalDownBytes : ℕ
  lastTotalUpBytes : ℕ
deriving DecidableEq, Repr

/-- The `{"down": ..., "up": ...}` record returned per tick. -/
structure RateSample where
  down : ℚ
  up : ℚ
deriving DecidableEq, Repr

/-- Model of `getCurrentNetSpeed(refreshInterval)` (lines 125-192).  The file
read is the only fallible step of the `try` block; it is modelled as an
`Except` input, and the `catch` branch returns the initial
`{down: 0, up: 0}` with the state untouched (the logging side effect is
outside the model).  On success the per-field zero checks adopt the new
totals as baseline, the deltas are divided by the interval, and the new
totals are stored unconditionally. -/
def getCurrentNetSpeed (readResult : Except String String)
    (refreshInterval : ℚ) (st : SamplerState) : SamplerState × RateSample :=
  match readResult with
  | Except.error _ => (st, { down := 0, up := 0 })
  | Except.ok content =>
    let totals := aggregateTotals content
    let lastDown := if st.lastTotalDownBytes = 0 then totals.1 else st.lastTotalDownBytes
    let lastUp := if st.lastTotalUpBytes = 0 then totals.2 else st.lastTotalUpBytes
    ({ lastTotalDownBytes := totals.1, lastTotalUpBytes := totals.2 },
     { down := ((totals.1 : ℚ) - (lastDown : ℚ)) / refreshInterval,
       up := ((totals.2 : ℚ) - (lastUp : ℚ)) / refreshInterval })

/-- State set by `enable()`: both stored totals reset to `0` (lines 93-95). -/
def enableState : SamplerState :=
  { lastTotalDownBytes := 0, lastTotalUpBytes := 0 }

/-- The unit ladder `speedUnits` (lines 30-32). -/
def speedUnits : List String :=
  ["B/s", "K/s", "M/s", "G/s", "T/s", "P/s", "E/s", "Z/s", "Y/s"]

/-- The scaling loop of `formatSpeedWithUnit` (lines 35-39): divide by
1000 and advance the unit while `amount >= 1000` and units remain.
`remaining` counts the units still available above `unitIndex`, i.e.
`speedUnits.length - 1 - unitIndex`, so `remaining = 0` is exactly the
loop condition `unitIndex < speedUnits.length - 1` failing. -/
def scaleGo : ℕ → ℚ → ℕ → ℚ × ℕ
  | 0, amount, unitIndex => (amount, unitIndex)
  | remaining + 1, amount, unitIndex =>
    if 1000 ≤ amount then
      scaleGo remaining (amount / 1000) (unitIndex + 1)
    else
      (amount, unitIndex)

/-- The scaling loop started at `unitIndex = 0` as in
`formatSpeedWithUnit`. -/
def scaleLoop (amount : ℚ) : ℚ × ℕ :=
  scaleGo (speedUnits.length - 1) amount 0

/-- The decimal-digit selection of `formatSpeedWithUnit`
(lines 41-52). -/
def chooseDigits (amount : ℚ) : ℕ :=
  if 100 ≤ amount ∨ amount - 0 < 1 / 100 then 0
  else if 10 ≤ amount then 1
  else 2

/-- Decimal rendering of `m` left-padded with zeros to `f` digits
(the fractional part of a `toFixed` result). -/
def natDigitsPadded (f m : ℕ) : String :=
  let r := Nat.repr m
  String.mk (List.replicate (f - r.length) '0') ++ r

/-- Model of `x.toFixed(f)` per ECMA-262: for negative `x` the sign is emitted
and `x` negated first; then `n` is the integer with `n / 10^f` closest
to `x`, ties towards the larger `n` — that is `⌊x * 10^f + 1/2⌋`. -/
def jsToFixed (x : ℚ) (f : ℕ) : String :=
  let sign := if x < 0 then "-" else ""
  let y := |x|
  let n := (⌊y * 10 ^ f + 1 / 2⌋).toNat
  if f = 0 then
    sign ++ Nat.repr n
  else
    sign ++ Nat.repr (n / 10 ^ f) ++ "." ++ natDigitsPadded f (n % 10 ^ f)

/-- Model of `formatSpeedWithUnit` (lines 34-56). -/
def formatSpeedWithUnit (amount : ℚ) : String :=
  let p := scaleLoop amount
  jsToFixed p.1 (chooseDigits p.1) ++ " " ++ (speedUnits.get? p.2).getD ""

/-- Model of `toSpeedString` (lines 58-60). -/
def toSpeedString (speed : RateSample) : String :=
  "↓ " ++ formatSpeedWithUnit speed.down ++ " ↑ " ++ formatSpeedWithUnit speed.up

/-- One execution of the timer callback (lines 102-111): sample, then
render the display string. -/
def tick (readResult : Except String String) (refreshInterval : ℚ)
    (st : SamplerState) : SamplerState × String :=
  let r := getCurrentNetSpeed readResult refreshInterval st
  (r.1, toSpeedString r.2)

/-- A counter line whose totals realize the synthetic aggregate of the spec
`cur = {rx:1009000, tx:500600}`. -/
def c1Content : String :=
  "eth0: 1009000 0 0 0 0 0 0 0 500600 0 0 0 0 0 0 0"

/-- A counter line with a nonzero rx total (900) and tx total 500000,
used with a stored state whose down-total is zero. -/
def c1ResetContent : String :=
  "eth0: 900 0 0 0 0 0 0 0 500000 0 0 0 0 0 0 0"

/-- A counter line for a WireGuard interface `wg0`. -/
def wgContent : String :=
  "wg0: 3000 0 0 0 0 0 0 0 4000 0 0 0 0 0 0 0"

/-- The first banner line of `/proc/net/dev`. -/
def hdrLine1 : String :=
  "Inter-|   Receive                                                |  Transmit"

/-- The second banner line of `/proc/net/dev`. -/
def hdrLine2 : String :=
  " face |bytes    packets errs drop fifo frame compressed multicast|bytes    packets errs drop fifo colls carrier compressed"

/-- A counter line whose received-bytes token `12ab` is not a
well-formed integer but has a numeric prefix. -/
def malformedLine : String :=
  "eth0: 12ab 0 0 0 0 0 0 0 34 0 0 0 0 0 0 0"

/-- A physical-interface counter line contributing `(5, 6)`. -/
def ethLineA : String :=
  "eth0: 5 0 0 0 0 0 0 0 6 0 0 0 0 0 0 0"

/-- A physical-interface counter line contributing `(7, 8)`. -/
def ethLineB : String :=
  "eth1: 7 0 0 0 0 0 0 0 8 0 0 0 0 0 0 0"

/-- A virtual-interface counter line (`veth` prefix). -/
def vethLine : String :=
  "veth12ab: 5 0 0 0 0 0 0 0 6 0 0 0 0 0 0 0"

/-- Evaluation of the formatter at `0`. -/
theorem formatSpeedWithUnit_zero : formatSpeedWithUnit 0 = "0 B/s" := by
  have h1 : scaleLoop 0 = (0, 0) := by norm_num [scaleLoop, scaleGo, speedUnits]
  simp only [formatSpeedWithUnit, h1]
  norm_num [chooseDigits, jsToFixed]
  decide

/-- Evaluation of the formatter at `999`. -/
theorem formatSpeedWithUnit_999 : formatSpeedWithUnit 999 = "999 B/s" := by
  have h1 : scaleLoop 999 = (999, 0) := by norm_num [scaleLoop, scaleGo, speedUnits]
  simp only [formatSpeedWithUnit, h1]
  norm_num [chooseDigits, jsToFixed]
  decide

/-- Evaluation of the formatter at `1000`. -/
theorem formatSpeedWithUnit_1000 : formatSpeedWithUnit 1000 = "1.00 K/s" := by
  have h1 : scaleLoop 1000 = (1, 1) := by norm_num [scaleLoop, scaleGo, speedUnits]
  simp only [formatSpeedWithUnit, h1]
  norm_num [chooseDigits, jsToFixed]
  decide

/-- Evaluation of the formatter at `123456`. -/
theorem formatSpeedWithUnit_123456 : formatSpeedWithUnit 123456 = "123 K/s" := by
  have h1 : scaleLoop 123456 = (15432 / 125, 1) := by
    norm_num [scaleLoop, scaleGo, speedUnits]
  have h2 : |(15432 / 125 : ℚ)| = 15432 / 125 := abs_of_nonneg (by norm_num)
  have h3 : (⌊(15432 / 125 : ℚ) + 1 / 2⌋ : ℤ) = 123 := by norm_num
  simp only [formatSpeedWithUnit, h1]
  norm_num [chooseDigits, jsToFixed, h2, h3]
  decide

/-- Evaluation of the formatter at `3000`. -/
theorem formatSpeedWithUnit_3000 : formatSpeedWithUnit 3000 = "3.00 K/s" := by
  have h1 : scaleLoop 3000 = (3, 1) := by norm_num [scaleLoop, scaleGo, speedUnits]
  simp only [formatSpeedWithUnit, h1]
  norm_num [chooseDigits, jsToFixed]
  decide

/-- Evaluation of the formatter at `200`. -/
theorem formatSpeedWithUnit_200 : formatSpeedWithUnit 200 = "200 B/s" := by
  have h1 : scaleLoop 200 = (200, 0) := by norm_num [scaleLoop, scaleGo, speedUnits]
  simp only [formatSpeedWithUnit, h1]
  norm_num [chooseDigits, jsToFixed]
  decide

/-- The astronomically large test input: 27 nines.  The scaling loop
saturates at the last unit and the formatter returns a `Y/s` string. -/
theorem formatSpeedWithUnit_huge :
    formatSpeedWithUnit 999999999999999999999999999 = "1000 Y/s" := by
  have h1 : scaleLoop 999999999999999999999999999 =
      (999999999999999999999999999 / 1000000000000000000000000, 8) := by
    norm_num [scaleLoop, scaleGo, speedUnits]
  have h2 : |(999999999999999999999999999 / 1000000000000000000000000 : ℚ)| =
      999999999999999999999999999 / 1000000000000000000000000 :=
    abs_of_nonneg (by norm_num)
  have h3 : (⌊(999999999999999999999999999 / 1000000000000000000000000 : ℚ) + 1 / 2⌋ : ℤ) =
      1000 := by norm_num
  simp only [formatSpeedWithUnit, h1]
  norm_num [chooseDigits, jsToFixed, h2, h3]
  decide

/-- The unit index never moves backwards and advances at most
`remaining` times. -/
theorem scaleGo_idx_bounds (r : ℕ) :
    ∀ (a : ℚ) (i : ℕ), i ≤ (scaleGo r a i).2 ∧ (scaleGo r a i).2 ≤ i + r := by
  induction r with
  | zero =>
    intro a i
    simp [scaleGo]
  | succ n ih =>
    intro a i
    simp only [scaleGo]
    split
    · have h := ih (a / 1000) (i + 1)
      omega
    · simp

/-- The scaled amount times `1000` to the number of scaling steps
recovers the original amount. -/
theorem scaleGo_mul (r : ℕ) :
    ∀ (a : ℚ) (i : ℕ),
      (scaleGo r a i).1 * 1000 ^ ((scaleGo r a i).2 - i) = a := by
  induction r with
  | zero =>
    intro a i
    simp [scaleGo]
  | succ n ih =>
    intro a i
    simp only [scaleGo]
    split
    · have hidx := (scaleGo_idx_bounds n (a / 1000) (i + 1)).1
      have ihh := ih (a / 1000) (i + 1)
      have hexp : (scaleGo n (a / 1000) (i + 1)).2 - i =
          ((scaleGo n (a / 1000) (i + 1)).2 - (i + 1)) + 1 := by omega
      rw [hexp, pow_succ, ← mul_assoc, ihh, div_mul_cancel₀]
      norm_num
    · simp

/-- If the loop stopped before exhausting the available units, it
stopped because the amount dropped below `1000`. -/
theorem scaleGo_amount_lt (r : ℕ) :
    ∀ (a : ℚ) (i : ℕ),
      (scaleGo r a i).2 - i < r → (scaleGo r a i).1 < 1000 := by
  induction r with
  | zero =>
    intro a i h
    simp only [scaleGo] at h
    omega
  | succ n ih =>
    intro a i h
    simp only [scaleGo] at h ⊢
    split
    · rename_i hcond
      have hidx := (scaleGo_idx_bounds n (a / 1000) (i + 1)).1
      refine ih (a / 1000) (i + 1) ?_
      rw [if_pos hcond] at h
      omega
    · rename_i hcond
      exact lt_of_not_le hcond

/-- Amounts at least `1` stay at least `1` through the scaling loop. -/
theorem scaleGo_one_le (r : ℕ) :
    ∀ (a : ℚ) (i : ℕ), 1 ≤ a → 1 ≤ (scaleGo r a i).1 := by
  induction r with
  | zero =>
    intro a i h
    simpa [scaleGo] using h
  | succ n ih =>
    intro a i h
    simp only [scaleGo]
    split
    · rename_i hcond
      refine ih (a / 1000) (i + 1) ?_
      rw [le_div_iff₀ (by norm_num : (0:ℚ) < 1000)]
      linarith
    · exact h

/-- Skipping a line with no contribution leaves the aggregate of the
surrounding lines unchanged. -/
theorem aggregateLines_skip (pre post : List String) (bad : String)
    (h : lineContribution bad = none) :
    aggregateLines (pre ++ bad :: post) = aggregateLines (pre ++ post) := by
  simp only [aggregateLines, List.foldl_append, List.foldl_cons, addContribution, h]

/-- C3: `enable()` resets the stored previous aggregate to the sentinel
with both fields zero, and on any tick taken from that sentinel state —
whatever the read result and whatever absolute counter values it holds —
the new aggregate is adopted as baseline before the delta, so the first
sample after (re)start is `down = 0, up = 0`. -/
theorem c3_first_tick_zero :
    enableState = { lastTotalDownBytes := 0, lastTotalUpBytes := 0 } ∧
    ∀ (readResult : Except String String) (interval : ℚ),
      (getCurrentNetSpeed readResult interval enableState).2 =
        { down := 0, up := 0 } := by
  refine ⟨rfl, ?_⟩
  intro readResult interval
  cases readResult with
  | error e => rfl
  | ok content =>
    simp [getCurrentNetSpeed, enableState, sub_self, zero_div]

/-- C5: a failed read yields the rate sample `{down: 0, up: 0}` for that
tick and leaves the stored state untouched, so a subsequent successful
tick behaves exactly as it would have without the failure (the sampling
loop is not terminated; the logging of the error is a side effect
outside the model). -/
theorem c5_read_failure_degrades :
    ∀ (e : String) (interval : ℚ) (st : SamplerState),
      getCurrentNetSpeed (Except.error e) interval st =
        (st, { down := 0, up := 0 }) ∧
      ∀ (content : String),
        getCurrentNetSpeed (Except.ok content) interval
            (getCurrentNetSpeed (Except.error e) interval st).1 =
          getCurrentNetSpeed (Except.ok content) interval st := by
  intro e interval st
  exact ⟨rfl, fun content => rfl⟩

/-- C6: the sampling-and-formatting tick is a total function of the read
result (including read failures) and state: it always returns normally
with the state update and a rendered display string, and on a failed
read that string is exactly the zero-rate display.  ("Never throws" is
rendered as totality of the embedded tick: its only fallible operation,
the file read, is consumed by the `catch` branch.) -/
theorem c6_tick_never_crashes :
    ∀ (readResult : Except String String) (interval : ℚ) (st : SamplerState),
      tick readResult interval st =
        ((getCurrentNetSpeed readResult interval st).1,
          toSpeedString (getCurrentNetSpeed readResult interval st).2) ∧
      ∀ (e : String),
        tick (Except.error e) interval st = (st, "↓ 0 B/s ↑ 0 B/s") := by
  intro readResult interval st
  refine ⟨rfl, ?_⟩
  intro e
  show (st, toSpeedString { down := 0, up := 0 }) = (st, "↓ 0 B/s ↑ 0 B/s")
  rw [toSpeedString, formatSpeedWithUnit_zero]
  rfl

/-- C10: baseline adoption is decided independently per direction on
every successful tick: a stored zero down-total forces the down
rate to `0` regardless of the new counters and of the stored up-total
(and symmetrically for up); consequently a tick that records a zero
total in a direction forces the rate of the next tick in that direction to
zero. -/
theorem c10_per_direction_adoption :
    (∀ (st : SamplerState) (content : String) (interval : ℚ),
        st.lastTotalDownBytes = 0 →
        (getCurrentNetSpeed (Except.ok content) interval st).2.down = 0) ∧
    (∀ (st : SamplerState) (content : String) (interval : ℚ),
        st.lastTotalUpBytes = 0 →
        (getCurrentNetSpeed (Except.ok content) interval st).2.up = 0) ∧
    (∀ (st : SamplerState) (c1 c2 : String) (i1 i2 : ℚ),
        (aggregateTotals c1).1 = 0 →
        (getCurrentNetSpeed (Except.ok c2) i2
            ((getCurrentNetSpeed (Except.ok c1) i1 st).1)).2.down = 0) ∧
    (∀ (st : SamplerState) (c1 c2 : String) (i1 i2 : ℚ),
        (aggregateTotals c1).2 = 0 →
        (getCurrentNetSpeed (Except.ok c2) i2
            ((getCurrentNetSpeed (Except.ok c1) i1 st).1)).2.up = 0) := by
  have hdown : ∀ (st : SamplerState) (content : String) (interval : ℚ),
      st.lastTotalDownBytes = 0 →
      (getCurrentNetSpeed (Except.ok content) interval st).2.down = 0 := by
    intro st content interval h
    simp [getCurrentNetSpeed, h, sub_self, zero_div]
  have hup : ∀ (st : SamplerState) (content : String) (interval : ℚ),
      st.lastTotalUpBytes = 0 →
      (getCurrentNetSpeed (Except.ok content) interval st).2.up = 0 := by
    intro st content interval h
    simp [getCurrentNetSpeed, h, sub_self, zero_div]
  refine ⟨hdown, hup, ?_, ?_⟩
  · intro st c1 c2 i1 i2 h
    exact hdown _ c2 i2 (by simp only [getCurrentNetSpeed]; exact h)
  · intro st c1 c2 i1 i2 h
    exact hup _ c2 i2 (by simp only [getCurrentNetSpeed]; exact h)

/-- Witness for C10 at a concrete state whose down-total is zero but
whose up-total is not. -/
theorem c10_witness :
    ({ lastTotalDownBytes := 0, lastTotalUpBytes := 500000 } :
        SamplerState).lastTotalDownBytes = 0 ∧
    (getCurrentNetSpeed (Except.ok c1Content) 3
        { lastTotalDownBytes := 0, lastTotalUpBytes := 500000 }).2.down = 0 :=
  ⟨rfl, c10_per_direction_adoption.1
    { lastTotalDownBytes := 0, lastTotalUpBytes := 500000 } c1Content 3 rfl⟩

/-- Counterexample to C2: the interface name `wg0` starts with the
prefix `wg` that the claim lists among the filtered prefixes, yet its
line contributes its full byte counts `(3000, 4000)` to the aggregate —
the code has no `wg` filter at all. -/
theorem c2_counterexample :
    jsStartsWith "wg0" "wg" = true ∧
    isVirtualIface "wg0" = false ∧
    lineContribution wgContent = some (3000, 4000) ∧
    aggregateTotals wgContent = (3000, 4000) := by
  refine ⟨by decide, by decide, by decide, by decide⟩

/-- C2 (amended): an interface is skipped exactly by the filter in the code:
name equal to `lo`, or starting with one of `ifb`, `lxdbr`, `virbr`,
`br`, `vnet`, `tun`, `tap`, `docker`, `utun` immediately followed by a
decimal digit, or starting with `veth`.  Any parsed line whose name
satisfies that filter contributes nothing to the aggregate, regardless
of its byte counts. -/
theorem c2_virtual_contributes_zero :
    (∀ (line : String),
        isVirtualIface (((fieldsOf line).get? 0).getD "") = true →
        lineContribution line = none) ∧
    (∀ (pre post : List String) (line : String),
        isVirtualIface (((fieldsOf line).get? 0).getD "") = true →
        aggregateLines (pre ++ line :: post) = aggregateLines (pre ++ post)) := by
  have hline : ∀ (line : String),
      isVirtualIface (((fieldsOf line).get? 0).getD "") = true →
      lineContribution line = none := by
    intro line h
    simp only [lineContribution]
    split
    · rfl
    · rw [h]
      simp
  exact ⟨hline, fun pre post line h => aggregateLines_skip pre post line (hline line h)⟩

/-- Witness for C2 (amended) at the `veth12ab` line. -/
theorem c2_witness :
    isVirtualIface (((fieldsOf vethLine).get? 0).getD "") = true ∧
    lineContribution vethLine = none :=
  ⟨by decide, c2_virtual_contributes_zero.1 vethLine (by decide)⟩

/-- Counterexample to C7: both banner lines of the `/proc/net/dev`
format tokenize to strictly more than 2 tokens (3 and 17 respectively),
so the token-count rule alone does not exclude them. -/
theorem c7_counterexample :
    (fieldsOf hdrLine1).length = 3 ∧
    (fieldsOf hdrLine2).length = 17 ∧
    ¬((fieldsOf hdrLine1).length ≤ 2) ∧
    ¬((fieldsOf hdrLine2).length ≤ 2) := by
  refine ⟨by decide, by decide, by decide, by decide⟩

/-- C7 (amended): a line yields a contribution only if it has more than
2 tokens, but the two banner lines have more than 2 tokens and are
excluded instead because their byte-count tokens (`Receive`/`bytes`)
fail to parse as numbers. -/
theorem c7_token_rule :
    (∀ (line : String),
        (fieldsOf line).length ≤ 2 → lineContribution line = none) ∧
    lineContribution hdrLine1 = none ∧
    lineContribution hdrLine2 = none := by
  refine ⟨?_, by decide, by decide⟩
  intro line h
  simp only [lineContribution]
  rw [if_pos h]

/-- Witness for C7 (amended) at the empty line (a single empty token). -/
theorem c7_witness :
    (fieldsOf "").length ≤ 2 ∧ lineContribution "" = none :=
  ⟨by decide, c7_token_rule.1 "" (by decide)⟩

/-- Counterexample to C8: the received-bytes token `12ab` of
`malformedLine` is not a well-formed non-negative integer, yet the line
is not dropped — `parseInt` takes the numeric prefix and the line
contributes `(12, 34)`. -/
theorem c8_counterexample :
    lineContribution malformedLine = some (12, 34) := by decide

/-- C8 (amended): a line is dropped when `parseInt` on its token 1 or
token 9 yields NaN (no leading decimal digit, `0x` with no hex digits,
or a missing token); a token with a decimal-digit prefix instead
contributes the value of that prefix.  Dropping a line never aborts the
rest: the aggregate of the remaining lines is unchanged. -/
theorem c8_unparsable_dropped :
    (∀ (line : String),
        (jsParseInt ((fieldsOf line).get? 1) = none ∨
         jsParseInt ((fieldsOf line).get? 9) = none) →
        lineContribution line = none) ∧
    (∀ (pre post : List String) (bad : String),
        lineContribution bad = none →
        aggregateLines (pre ++ bad :: post) = aggregateLines (pre ++ post)) := by
  refine ⟨?_, aggregateLines_skip⟩
  intro line h
  simp only [lineContribution]
  split
  · rfl
  · rcases h with h | h <;> (rw [h]; simp)

/-- Witness for C8 (amended): the first banner line has an unparsable
byte-count token, is dropped, and dropping it leaves the two physical
aggregate of the two physical lines unchanged. -/
theorem c8_witness :
    jsParseInt ((fieldsOf hdrLine1).get? 1) = none ∧
    lineContribution hdrLine1 = none ∧
    aggregateLines ([ethLineA] ++ hdrLine1 :: [ethLineB]) =
      aggregateLines ([ethLineA] ++ [ethLineB]) :=
  ⟨by decide,
   c8_unparsable_dropped.1 hdrLine1 (Or.inl (by decide)),
   c8_unparsable_dropped.2 [ethLineA] [ethLineB] hdrLine1
     (c8_unparsable_dropped.1 hdrLine1 (Or.inl (by decide)))⟩

/-- Counterexample to C1: the state `{down-total 0, up-total 500000}` is
not the sentinel (its up-total is nonzero), yet on a successful tick
reading `c1ResetContent` (totals `(900, 500000)`) the code adopts the
new down-total as baseline and reports `down = 0`, not the claimed
`(900 - 0) / 3 = 300`. -/
theorem c1_counterexample :
    ({ lastTotalDownBytes := 0, lastTotalUpBytes := 500000 } :
        SamplerState) ≠ enableState ∧
    aggregateTotals c1ResetContent = (900, 500000) ∧
    (getCurrentNetSpeed (Except.ok c1ResetContent) 3
        { lastTotalDownBytes := 0, lastTotalUpBytes := 500000 }).2.down = 0 ∧
    (((900 : ℕ) : ℚ) - ((0 : ℕ) : ℚ)) / 3 = 300 ∧
    (0 : ℚ) ≠ 300 := by
  have ht : aggregateTotals c1ResetContent = (900, 500000) := by decide
  refine ⟨by decide, ht, ?_, by norm_num, by norm_num⟩
  simp [getCurrentNetSpeed, ht, sub_self, zero_div]

/-- C1 (amended): on every successful tick whose previous aggregate has
both components nonzero, the sampler returns
`down = (new.rx - prev.rx) / interval` and `up` analogously for tx, and
stores the new aggregate unconditionally (even when numerically lower);
in particular for `prev = {rx:1000000, tx:500000}`,
`cur = {rx:1009000, tx:500600}`, `interval = 3` the result is
`down = 3000` formatted `"3.00 K/s"` and `up = 200` formatted
`"200 B/s"`. -/
theorem c1_delta_formula :
    (∀ (st : SamplerState) (interval : ℚ) (content : String),
        st.lastTotalDownBytes ≠ 0 → st.lastTotalUpBytes ≠ 0 →
        getCurrentNetSpeed (Except.ok content) interval st =
          ({ lastTotalDownBytes := (aggregateTotals content).1,
             lastTotalUpBytes := (aggregateTotals content).2 },
           { down := (((aggregateTotals content).1 : ℚ) -
                 (st.lastTotalDownBytes : ℚ)) / interval,
             up := (((aggregateTotals content).2 : ℚ) -
                 (st.lastTotalUpBytes : ℚ)) / interval })) ∧
    getCurrentNetSpeed (Except.ok c1Content) 3
        { lastTotalDownBytes := 1000000, lastTotalUpBytes := 500000 } =
      ({ lastTotalDownBytes := 1009000, lastTotalUpBytes := 500600 },
       { down := 3000, up := 200 }) ∧
    formatSpeedWithUnit 3000 = "3.00 K/s" ∧
    formatSpeedWithUnit 200 = "200 B/s" := by
  have hgen : ∀ (st : SamplerState) (interval : ℚ) (content : String),
      st.lastTotalDownBytes ≠ 0 → st.lastTotalUpBytes ≠ 0 →
      getCurrentNetSpeed (Except.ok content) interval st =
        ({ lastTotalDownBytes := (aggregateTotals content).1,
           lastTotalUpBytes := (aggregateTotals content).2 },
         { down := (((aggregateTotals content).1 : ℚ) -
               (st.lastTotalDownBytes : ℚ)) / interval,
           up := (((aggregateTotals content).2 : ℚ) -
               (st.lastTotalUpBytes : ℚ)) / interval }) := by
    intro st interval content h1 h2
    simp only [getCurrentNetSpeed]
    rw [if_neg h1, if_neg h2]
  refine ⟨hgen, ?_, formatSpeedWithUnit_3000, formatSpeedWithUnit_200⟩
  have ht : aggregateTotals c1Content = (1009000, 500600) := by decide
  rw [hgen { lastTotalDownBytes := 1000000, lastTotalUpBytes := 500000 } 3
      c1Content (by decide) (by decide), ht]
  norm_num

/-- Witness for C1 (amended) at the synthetic example of the spec. -/
theorem c1_witness :
    ({ lastTotalDownBytes := 1000000, lastTotalUpBytes := 500000 } :
        SamplerState).lastTotalDownBytes ≠ 0 ∧
    ({ lastTotalDownBytes := 1000000, lastTotalUpBytes := 500000 } :
        SamplerState).lastTotalUpBytes ≠ 0 ∧
    getCurrentNetSpeed (Except.ok c1Content) 3
        { lastTotalDownBytes := 1000000, lastTotalUpBytes := 500000 } =
      ({ lastTotalDownBytes := (aggregateTotals c1Content).1,
         lastTotalUpBytes := (aggregateTotals c1Content).2 },
       { down := (((aggregateTotals c1Content).1 : ℚ) - ((1000000 : ℕ) : ℚ)) / 3,
         up := (((aggregateTotals c1Content).2 : ℚ) - ((500000 : ℕ) : ℚ)) / 3 }) :=
  ⟨by decide, by decide,
   c1_delta_formula.1 { lastTotalDownBytes := 1000000, lastTotalUpBytes := 500000 }
     3 c1Content (by decide) (by decide)⟩

/-- C4: the formatter scales through the unit ladder by factors of 1000
saturating at the last unit (the final index never exceeds the table and
the scaled amount times `1000^index` recovers the input); the decimal
digits follow the documented table (0 digits when the scaled amount is
`>= 100` or `< 0.01`, 1 digit on `[10, 100)`, 2 digits on
`[0.01, 10)`); and the documented concrete values hold, the
astronomically large input saturating at `Y/s` without failing. -/
theorem c4_formatter_table :
    (∀ a : ℚ,
        ((100 ≤ a ∨ a < 1 / 100) → chooseDigits a = 0) ∧
        ((10 ≤ a ∧ a < 100) → chooseDigits a = 1) ∧
        ((1 / 100 ≤ a ∧ a < 10) → chooseDigits a = 2)) ∧
    (∀ a : ℚ, (scaleLoop a).2 ≤ speedUnits.length - 1) ∧
    (∀ a : ℚ, (scaleLoop a).1 * 1000 ^ (scaleLoop a).2 = a) ∧
    formatSpeedWithUnit 0 = "0 B/s" ∧
    formatSpeedWithUnit 999 = "999 B/s" ∧
    formatSpeedWithUnit 1000 = "1.00 K/s" ∧
    formatSpeedWithUnit 123456 = "123 K/s" ∧
    formatSpeedWithUnit 999999999999999999999999999 = "1000 Y/s" := by
  refine ⟨?_, ?_, ?_, formatSpeedWithUnit_zero, formatSpeedWithUnit_999,
    formatSpeedWithUnit_1000, formatSpeedWithUnit_123456, formatSpeedWithUnit_huge⟩
  · intro a
    refine ⟨?_, ?_, ?_⟩
    · intro h
      have h' : 100 ≤ a ∨ a - 0 < 1 / 100 := by
        rcases h with h | h
        · exact Or.inl h
        · exact Or.inr (by rwa [sub_zero])
      simp only [chooseDigits]
      rw [if_pos h']
    · rintro ⟨h10, h100⟩
      simp only [chooseDigits]
      rw [if_neg, if_pos h10]
      rw [not_or, sub_zero]
      exact ⟨not_le.mpr h100, not_lt.mpr (by linarith)⟩
    · rintro ⟨hlo, hhi⟩
      simp only [chooseDigits]
      rw [if_neg, if_neg (not_le.mpr hhi)]
      rw [not_or, sub_zero]
      exact ⟨not_le.mpr (by linarith), not_lt.mpr hlo⟩
  · intro a
    have h := (scaleGo_idx_bounds (speedUnits.length - 1) a 0).2
    simpa [scaleLoop] using h
  · intro a
    have h := scaleGo_mul (speedUnits.length - 1) a 0
    simpa [scaleLoop] using h

/-- Witness for C4 at scaled amounts `150`, `50` and `5`, one per row of
the digit table. -/
theorem c4_witness :
    ((100 : ℚ) ≤ 150 ∨ (150 : ℚ) < 1 / 100) ∧ chooseDigits 150 = 0 ∧
    ((10 : ℚ) ≤ 50 ∧ (50 : ℚ) < 100) ∧ chooseDigits 50 = 1 ∧
    ((1 / 100 : ℚ) ≤ 5 ∧ (5 : ℚ) < 10) ∧ chooseDigits 5 = 2 :=
  ⟨Or.inl (by norm_num),
   (c4_formatter_table.1 150).1 (Or.inl (by norm_num)),
   ⟨by norm_num, by norm_num⟩,
   (c4_formatter_table.1 50).2.1 ⟨by norm_num, by norm_num⟩,
   ⟨by norm_num, by norm_num⟩,
   (c4_formatter_table.1 5).2.2 ⟨by norm_num, by norm_num⟩⟩

/-- Counterexample to C9: at the amount `0` (which is `>= 0` as the
claim requires) the chosen scaling step is `k = 0` and the scaled
numeric part is `0`, so `1 <= printed * 1000^k` fails. -/
theorem c9_counterexample :
    scaleLoop 0 = (0, 0) ∧
    ¬(1 ≤ (scaleLoop 0).1 * 1000 ^ (scaleLoop 0).2) ∧
    formatSpeedWithUnit 0 = "0 B/s" := by
  have h1 : scaleLoop 0 = (0, 0) := by norm_num [scaleLoop, scaleGo, speedUnits]
  refine ⟨h1, ?_, formatSpeedWithUnit_zero⟩
  rw [h1]
  norm_num

/-- C9 (amended): for any amount `x >= 1` the loop chooses exactly one
unit — the scaled pair is a function of `x`, its index a valid position
in the unit table — the scaled amount recovers `x` via
`amount * 1000^k = x`, stays at least `1`, and is below `1000` whenever
the chosen unit is not the top one (at the top unit it may exceed
`1000` without further scaling). -/
theorem c9_scaling_invariant :
    ∀ x : ℚ, 1 ≤ x →
      (scaleLoop x).2 ≤ speedUnits.length - 1 ∧
      (scaleLoop x).1 * 1000 ^ (scaleLoop x).2 = x ∧
      1 ≤ (scaleLoop x).1 ∧
      ((scaleLoop x).2 < speedUnits.length - 1 → (scaleLoop x).1 < 1000) := by
  intro x hx
  refine ⟨?_, ?_, ?_, ?_⟩
  · simpa [scaleLoop] using (scaleGo_idx_bounds (speedUnits.length - 1) x 0).2
  · simpa [scaleLoop] using scaleGo_mul (speedUnits.length - 1) x 0
  · exact scaleGo_one_le (speedUnits.length - 1) x 0 hx
  · intro h
    refine scaleGo_amount_lt (speedUnits.length - 1) x 0 ?_
    simpa [scaleLoop] using h

/-- Witness for C9 (amended) at `x = 123456`. -/
theorem c9_witness :
    (1 : ℚ) ≤ 123456 ∧
    ((scaleLoop 123456).2 ≤ speedUnits.length - 1 ∧
     (scaleLoop 123456).1 * 1000 ^ (scaleLoop 123456).2 = 123456 ∧
     1 ≤ (scaleLoop 123456).1 ∧
     ((scaleLoop 123456).2 < speedUnits.length - 1 →
       (scaleLoop 123456).1 < 1000)) :=
  ⟨by norm_num, c9_scaling_invariant 123456 (by norm_num)⟩
